import Mathlib

/-!
Verification of the articles CRUD handler (`netlify/functions/articles.mts`).

The handler is a single serverless function dispatching on HTTP method and
path over a key-value JSON blob store.  We shallowly embed it here:

* `Article` models the JSON documents.  The incoming POST body is untyped
  JSON; each field is an `Option String` where `none` stands for a missing
  (or `null`/`undefined`) field, so that object-spread semantics and JS
  truthiness checks can be expressed faithfully.
* `Store` models the Netlify blob store as an association list of
  key/article pairs plus a fault flag: when `fail` is set every store
  operation raises, modelling an unavailable store.  Exceptions are
  modelled with `Except String`.
* `handler` is the embedding of the exported request handler: it receives
  the HTTP method, the URL pathname, the outcome of JSON-parsing the body
  (`Except`, since `req.json()` can throw), the current timestamp string
  `now`, and the store, and produces a `Response` and the resulting store.
  The `try`/`catch` wrapper of the source corresponds to the final `match`
  in `handler` converting any raised exception into a 500 response.
-/

/-- A JSON article document.  Fields mirror the `Article` interface of the
source; every field is optional because the stored value and the POST body
are plain JSON objects in which any field may be absent. -/
structure Article where
  slug : Option String := none
  title : Option String := none
  excerpt : Option String := none
  content : Option String := none
  category : Option String := none
  categoryDisplay : Option String := none
  status : Option String := none
  publishedAt : Option String := none
  createdAt : Option String := none
  updatedAt : Option String := none
deriving Repr, DecidableEq

/-- The blob store: an association list of key/article entries (the order
is the order `store.list()` enumerates the keys in) together with a fault
flag making every operation raise, to model store failures. -/
structure Store where
  entries : List (String × Article)
  fail : Bool
deriving Repr, DecidableEq

/-- Pure lookup of a key in the store contents (first entry wins). -/
def storeFind (st : Store) (k : String) : Option Article :=
  (st.entries.find? (fun e => e.1 == k)).map (fun e => e.2)

/-- `store.get(key, { type: "json" })`: `null` becomes `none`. -/
def Store.getJ (st : Store) (k : String) : Except String (Option Article) :=
  if st.fail then .error "store failure" else .ok (storeFind st k)

/-- Contents of the store after writing `a` under `k`: overwrite the entry
under `k` if one exists, otherwise append a new entry. -/
def setEntries (entries : List (String × Article)) (k : String) (a : Article) :
    List (String × Article) :=
  if entries.any (fun e => e.1 == k)
  then entries.map (fun e => if e.1 == k then (k, a) else e)
  else entries ++ [(k, a)]

/-- `store.setJSON(key, value)`. -/
def Store.setJSON (st : Store) (k : String) (a : Article) : Except String Store :=
  if st.fail then .error "store failure"
  else .ok ⟨setEntries st.entries k a, st.fail⟩

/-- `store.delete(key)`: remove the entry under `key` (a no-op when the key
is absent). -/
def Store.del (st : Store) (k : String) : Except String Store :=
  if st.fail then .error "store failure"
  else .ok ⟨st.entries.filter (fun e => e.1 != k), st.fail⟩

/-- `store.list()`: the keys of all blobs, in store order. -/
def Store.listKeys (st : Store) : Except String (List String) :=
  if st.fail then .error "store failure" else .ok (st.entries.map (fun e => e.1))

/-- JS truthiness of a JSON string field: absent (`undefined`/`null`) and
the empty string are falsy; any other string is truthy. -/
def truthyStr : Option String → Bool
  | none => false
  | some s => s ≠ ""

/-- `existingArticle?.createdAt || now`: optional chaining followed by
truthy-or. -/
def orTruthy (o : Option String) (dflt : String) : String :=
  match o with
  | some s => if s = "" then dflt else s
  | none => dflt

/-- Characters matched by the regex class `[a-z0-9-]`. -/
def allowedChar (c : Char) : Bool :=
  (('a' ≤ c && c ≤ 'z') || ('0' ≤ c && c ≤ '9')) || c = '-'

/-- `.toLowerCase().replace(/[^a-z0-9-]/g, "-")` on one character: lower-case
it (JS `toLowerCase`, modelled on the Basic Latin range), then replace it by
`'-'` unless it lands in `[a-z0-9-]`. -/
def sanitizeChar (c : Char) : Char :=
  let lc := c.toLower
  if allowedChar lc then lc else '-'

/-- `.replace(/[-]+/g, "-")` (hyphen-run collapse): collapse every run of
hyphens to a single one. -/
def collapseH : List Char → List Char
  | [] => []
  | [c] => [c]
  | a :: b :: rest =>
    if a = '-' ∧ b = '-' then collapseH (b :: rest) else a :: collapseH (b :: rest)

/-- The `^-` half of `.replace(/^-|-$/g, "")`: drop one leading hyphen. -/
def stripLead : List Char → List Char
  | [] => []
  | c :: rest => if c = '-' then rest else c :: rest

/-- The `-$` half of `.replace(/^-|-$/g, "")`: drop one trailing hyphen. -/
def stripTrail : List Char → List Char
  | [] => []
  | [c] => if c = '-' then [] else [c]
  | a :: b :: rest => a :: stripTrail (b :: rest)

/-- The slug sanitation pipeline of the POST branch, on character lists. -/
def sanitizeList (l : List Char) : List Char :=
  stripTrail (stripLead (collapseH (l.map sanitizeChar)))

/-- The whole `sanitizedSlug` pipeline of the source: lower-case, replace
every character outside `[a-z0-9-]` by a hyphen, collapse hyphen runs,
strip one leading and one trailing hyphen. -/
def sanitizeSlug (s : String) : String :=
  String.mk (sanitizeList s.data)

/-- No two adjacent hyphens anywhere in the list. -/
def noDouble : List Char → Prop
  | [] => True
  | [_] => True
  | a :: b :: rest => ¬(a = '-' ∧ b = '-') ∧ noDouble (b :: rest)

/-- The first character, if any, is not a hyphen. -/
def headOk : List Char → Prop
  | [] => True
  | c :: _ => c ≠ '-'

/-- The last character, if any, is not a hyphen. -/
def lastOk : List Char → Prop
  | [] => True
  | [c] => c ≠ '-'
  | _ :: b :: rest => lastOk (b :: rest)

/-- `split("/")` on a character list: the fields between slashes, empty
fields included (the semantics of `String.prototype.split` with a
one-character separator). -/
def splitSlash : List Char → List (List Char)
  | [] => [[]]
  | c :: rest =>
    match splitSlash rest with
    | [] => if c = '/' then [[], []] else [[c]]
    | g :: gs => if c = '/' then [] :: g :: gs else (c :: g) :: gs

/-- `.join("/")`. -/
def joinSlash : List String → String
  | [] => ""
  | [s] => s
  | s :: t :: rest => s ++ "/" ++ joinSlash (t :: rest)

/-- `url.pathname.split("/").filter(Boolean)`. -/
def pathParts (pathname : String) : List String :=
  ((splitSlash pathname.data).map String.mk).filter (fun s => s ≠ "")

/-- `pathParts.length > 2 ? pathParts.slice(2).join("/") : null`. -/
def pathSlug (pathname : String) : Option String :=
  let parts := pathParts pathname
  if parts.length > 2 then some (joinSlash (parts.drop 2)) else none

/-- Number of days in a month of the (proleptic) Gregorian calendar. -/
def daysInMonth (y m : Nat) : Nat :=
  if m = 2 then
    if y % 4 = 0 && (y % 100 ≠ 0 || y % 400 = 0) then 29 else 28
  else if m = 4 || m = 6 || m = 9 || m = 11 then 30
  else 31

/-- Days from 1970-01-01 (the epoch) to the civil date `y-m-d`, for a valid
Gregorian date with `0 ≤ y ≤ 9999` (standard era/year-of-era computation,
carried out in `Nat` after shifting the year by 400). -/
def epochDays (y m d : Nat) : Int :=
  let yAdj := y + 400
  let y1 := if m ≤ 2 then yAdj - 1 else yAdj
  let era := y1 / 400
  let yoe := y1 % 400
  let mp := (m + 9) % 12
  let doy := (153 * mp + 2) / 5 + d - 1
  let doe := yoe * 365 + yoe / 4 - yoe / 100 + doy
  (((era * 146097 + doe : Nat) : Int)) - 146097 - 719468

/-- Value of an ASCII digit character. -/
def digitVal (c : Char) : Nat := c.toNat - 48

/-- Milliseconds since the epoch for a date-only ISO-8601 string
`YYYY-MM-DD`, or `none` for anything unparseable.  This models (the
date-only fragment of) `new Date(s).getTime()`: a date-only ISO string is
interpreted as UTC midnight, anything else in this development counts as an
invalid date (`NaN`), which `none` stands for. -/
def parseIsoDateMs (s : String) : Option Int :=
  match s.data with
  | [y1, y2, y3, y4, h1, m1, m2, h2, d1, d2] =>
    if h1 = '-' && h2 = '-' &&
       (y1.isDigit && y2.isDigit && y3.isDigit && y4.isDigit &&
        m1.isDigit && m2.isDigit && d1.isDigit && d2.isDigit) then
      let y := ((digitVal y1 * 10 + digitVal y2) * 10 + digitVal y3) * 10 + digitVal y4
      let m := digitVal m1 * 10 + digitVal m2
      let d := digitVal d1 * 10 + digitVal d2
      if 1 ≤ m && m ≤ 12 && 1 ≤ d && d ≤ daysInMonth y m then
        some (epochDays y m d * 86400000)
      else none
    else none
  | _ => none

/-- `new Date(a.publishedAt).getTime()`: `none` models `NaN` (including the
`publishedAt`-absent case, where `new Date(undefined)` is an invalid
date). -/
def articleTimeMs (a : Article) : Option Int :=
  match a.publishedAt with
  | some s => parseIsoDateMs s
  | none => none

/-- The sort comparator `(a, b) => new Date(b.publishedAt).getTime() -
new Date(a.publishedAt).getTime()` turned into a "may `a` stay before `b`"
boolean: the comparator value is `≤ 0`.  When either date is invalid the
subtraction is `NaN`, which `Array.prototype.sort`'s `SortCompare` treats
as `+0`, hence `true`. -/
def sortLE (a b : Article) : Bool :=
  match articleTimeMs a, articleTimeMs b with
  | some ta, some tb => tb ≤ ta
  | _, _ => true

/-- Insert into a sorted list, after any element it compares `≤` with
(the stable position). -/
def insertSorted (a : Article) : List Article → List Article
  | [] => [a]
  | b :: l => if sortLE a b then a :: b :: l else b :: insertSorted a l

/-- `articles.sort(comparator)`: a stable sort by `sortLE`.
`Array.prototype.sort` is required to be stable, and for a consistent
comparator every stable sort produces the same list, so insertion sort is
an exact model there; for an inconsistent comparator (invalid dates) it is
one stability-respecting outcome. -/
def sortArticles : List Article → List Article
  | [] => []
  | a :: l => insertSorted a (sortArticles l)

/-- The body of the listing loop: `store.get` each key and keep the value
when it exists and `article.status === "published"`. -/
def getPublishedLoop (st : Store) : List String → Except String (List Article)
  | [] => .ok []
  | k :: ks =>
    match st.getJ k with
    | .error e => .error e
    | .ok a? =>
      match getPublishedLoop st ks with
      | .error e => .error e
      | .ok rest =>
        match a? with
        | some a => if a.status = some "published" then .ok (a :: rest) else .ok rest
        | none => .ok rest

/-- A response body: a single article, an array of articles,
`{"error": msg}`, or `{"success": true}`. -/
inductive RespBody where
  | json (a : Article)
  | jsonList (l : List Article)
  | err (msg : String)
  | success
deriving Repr, DecidableEq

/-- An HTTP response: status code and JSON body (the `Content-Type:
application/json` header is attached to every response and is not
modelled separately). -/
structure Response where
  status : Nat
  body : RespBody
deriving Repr, DecidableEq

/-- The `try` block of the handler: dispatch on method and path slug and
perform the store operations, propagating any raised exception. -/
def handleCore (method pathname : String) (bodyResult : Except String Article)
    (now : String) (st : Store) : Except String (Response × Store) :=
  let slug := pathSlug pathname
  if method = "GET" then
    match slug with
    | some s =>
      match st.getJ s with
      | .error e => .error e
      | .ok none => .ok (⟨404, .err "Article not found"⟩, st)
      | .ok (some a) => .ok (⟨200, .json a⟩, st)
    | none =>
      match st.listKeys with
      | .error e => .error e
      | .ok keys =>
        match getPublishedLoop st keys with
        | .error e => .error e
        | .ok articles => .ok (⟨200, .jsonList (sortArticles articles)⟩, st)
  else if method = "POST" then
    match bodyResult with
    | .error e => .error e
    | .ok body =>
      if !truthyStr body.slug || !truthyStr body.title then
        .ok (⟨400, .err "Slug and title are required"⟩, st)
      else
        let sanitizedSlug := sanitizeSlug (body.slug.getD "")
        match st.getJ sanitizedSlug with
        | .error e => .error e
        | .ok existingArticle =>
          let articleToSave : Article :=
            { body with
              slug := some sanitizedSlug
              createdAt := some (orTruthy (existingArticle.bind (fun ex => ex.createdAt)) now)
              updatedAt := some now }
          match st.setJSON sanitizedSlug articleToSave with
          | .error e => .error e
          | .ok st' =>
            .ok (⟨if existingArticle.isSome then 200 else 201, .json articleToSave⟩, st')
  else if method = "DELETE" then
    match slug with
    | none => .ok (⟨400, .err "Slug is required"⟩, st)
    | some s =>
      match st.del s with
      | .error e => .error e
      | .ok st' => .ok (⟨200, .success⟩, st')
  else
    .ok (⟨405, .err "Method not allowed"⟩, st)

/-- The exported handler: the `try`/`catch` wrapper around `handleCore`.
Any raised exception (JSON-parse failure or store failure) becomes a 500
with a generic body, and a failed request leaves the store as it was. -/
def handler (method pathname : String) (bodyResult : Except String Article)
    (now : String) (st : Store) : Response × Store :=
  match handleCore method pathname bodyResult now st with
  | .ok r => r
  | .error _ => (⟨500, .err "Internal server error"⟩, st)

/-- The articles collected by the listing loop, purely: for each key, the
stored value when it exists and has `status == "published"`. -/
def publishedOf (st : Store) (keys : List String) : List Article :=
  keys.filterMap (fun k =>
    match storeFind st k with
    | some a => if a.status = some "published" then some a else none
    | none => none)

/-- What a no-slug GET responds with on a healthy store: the published
entries, sorted by the comparator. -/
def listedArticles (st : Store) : List Article :=
  sortArticles (publishedOf st (st.entries.map (fun e => e.1)))

/-- `a` is no older than `b`: whenever both `publishedAt` dates parse,
`b`'s timestamp is at most `a`'s.  `List.Pairwise descBy` states "sorted
newest first" for lists of articles with parseable dates. -/
def descBy (a b : Article) : Prop :=
  ∀ ta tb : Int, articleTimeMs a = some ta → articleTimeMs b = some tb → tb ≤ ta

/-- The record the POST branch writes and returns (`articleToSave`): the
body's fields, with `slug` replaced by the sanitized slug, `createdAt`
reused from the existing record when truthy (else `now`), and `updatedAt`
stamped with `now`. -/
def savedArticle (body : Article) (ex : Option Article) (now : String) : Article :=
  { body with
    slug := some (sanitizeSlug (body.slug.getD ""))
    createdAt := some (orTruthy (ex.bind (fun e => e.createdAt)) now)
    updatedAt := some now }

/-- Modelled from the spec: the "epoch-0 fallback" reading of an article's
`publishedAt`, under which an unparseable date counts as timestamp 0.  Used
only to compare the spec's description of the sort against the code. -/
def specEpochTime (a : Article) : Int :=
  (articleTimeMs a).getD 0

/-- Store invariant: every stored record carries a truthy (present and
nonempty) `createdAt`.  Every record the handler itself writes satisfies
this whenever `now` is nonempty, since `createdAt` is stamped on every
write. -/
def createdAtOk (st : Store) : Prop :=
  ∀ e ∈ st.entries, ∃ c, (e.2 : Article).createdAt = some c ∧ c ≠ ""

/-- Fixture: a draft article, for exercising the status filter. -/
def artDraft : Article :=
  { slug := some "my-draft", title := some "A draft", status := some "draft",
    publishedAt := some "2024-03-01" }

/-- Fixture: a published article dated 2024-01-01. -/
def artJan : Article :=
  { slug := some "jan", title := some "January", status := some "published",
    publishedAt := some "2024-01-01" }

/-- Fixture: a published article dated 2024-06-01. -/
def artJun : Article :=
  { slug := some "jun", title := some "June", status := some "published",
    publishedAt := some "2024-06-01" }

/-- Fixture: a published article whose `publishedAt` does not parse. -/
def artBad : Article :=
  { slug := some "bad", title := some "Bad date", status := some "published",
    publishedAt := some "not-a-date" }

/-- Fixture: a stored article with a truthy `createdAt`, for the
update-path witnesses. -/
def artExisting : Article :=
  { slug := some "hello", title := some "Old title", status := some "published",
    publishedAt := some "2023-05-01", createdAt := some "2023-05-01T00:00:00.000Z",
    updatedAt := some "2023-05-01T00:00:00.000Z" }

/-- Fixture: a POST body whose slug is truthy but sanitizes to the empty
string. -/
def bodyBang : Article := { slug := some "!!!", title := some "Bang" }

/-- Fixture: the record the handler saves for `bodyBang` on an empty store
at the fixed timestamp used in the corresponding theorem. -/
def savedBang : Article :=
  { slug := some "", title := some "Bang", createdAt := some "2024-01-01T00:00:00.000Z",
    updatedAt := some "2024-01-01T00:00:00.000Z" }

/-- Fixture: a store whose listing order puts the unparseable-date entry
first (`store.list()` enumerates keys lexicographically; "bad" < "jun"). -/
def stBadOrder : Store := ⟨[("bad", artBad), ("jun", artJun)], false⟩

/-! ### Properties of the slug sanitation pipeline -/

theorem allowedChar_sanitizeChar (c : Char) : allowedChar (sanitizeChar c) = true := by
  simp only [sanitizeChar]
  by_cases h : allowedChar c.toLower = true
  · rw [if_pos h]; exact h
  · rw [if_neg h]; decide

theorem sanitizeChar_of_allowed {c : Char} (h : allowedChar c = true) : sanitizeChar c = c := by
  have hval : (97 ≤ c.toNat ∧ c.toNat ≤ 122) ∨ (48 ≤ c.toNat ∧ c.toNat ≤ 57) ∨ c.toNat = 45 := by
    simp only [allowedChar, Bool.or_eq_true, Bool.and_eq_true, decide_eq_true_eq, Char.le_def,
      UInt32.le_def] at h
    rcases h with (⟨h1, h2⟩ | ⟨h1, h2⟩) | h
    · exact Or.inl ⟨h1, h2⟩
    · exact Or.inr (Or.inl ⟨h1, h2⟩)
    · subst h; exact Or.inr (Or.inr rfl)
  have hnot : ¬(c.toNat ≥ 65 ∧ c.toNat ≤ 90) := by omega
  unfold sanitizeChar Char.toLower
  rw [if_neg hnot, if_pos h]

theorem map_sanitizeChar_of_allowed :
    ∀ {l : List Char}, (∀ c ∈ l, allowedChar c = true) → l.map sanitizeChar = l := by
  intro l h
  induction l with
  | nil => rfl
  | cons a rest ih =>
    simp only [List.map_cons]
    rw [sanitizeChar_of_allowed (h a (List.mem_cons_self a rest)),
      ih (fun c hc => h c (List.mem_cons_of_mem a hc))]

theorem collapseH_subset : ∀ l : List Char, ∀ c ∈ collapseH l, c ∈ l := by
  intro l
  induction l with
  | nil => intro c hc; simp [collapseH] at hc
  | cons a rest ih =>
    cases rest with
    | nil => intro c hc; simp [collapseH] at hc; simp [hc]
    | cons b rs =>
      intro c hc
      by_cases hab : a = '-' ∧ b = '-'
      · rw [collapseH, if_pos hab] at hc
        exact List.mem_cons_of_mem a (ih c hc)
      · rw [collapseH, if_neg hab] at hc
        rcases List.mem_cons.mp hc with h | h
        · exact h ▸ List.mem_cons_self a _
        · exact List.mem_cons_of_mem a (ih c h)

theorem collapseH_cons : ∀ (l : List Char) (a : Char), ∃ t, collapseH (a :: l) = a :: t := by
  intro l
  induction l with
  | nil => intro a; exact ⟨[], rfl⟩
  | cons b rs ih =>
    intro a
    by_cases hab : a = '-' ∧ b = '-'
    · obtain ⟨t, ht⟩ := ih b
      refine ⟨t, ?_⟩
      rw [collapseH, if_pos hab, ht, hab.1, hab.2]
    · exact ⟨collapseH (b :: rs), by rw [collapseH, if_neg hab]⟩

theorem noDouble_collapseH : ∀ l : List Char, noDouble (collapseH l) := by
  intro l
  induction l with
  | nil => exact trivial
  | cons a rest ih =>
    cases rest with
    | nil => exact trivial
    | cons b rs =>
      by_cases hab : a = '-' ∧ b = '-'
      · rw [collapseH, if_pos hab]; exact ih
      · rw [collapseH, if_neg hab]
        obtain ⟨t, ht⟩ := collapseH_cons rs b
        rw [ht]
        exact ⟨hab, ht ▸ ih⟩

theorem collapseH_of_noDouble : ∀ {l : List Char}, noDouble l → collapseH l = l := by
  intro l
  induction l with
  | nil => intro _; rfl
  | cons a rest ih =>
    cases rest with
    | nil => intro _; rfl
    | cons b rs =>
      intro h
      rw [collapseH, if_neg h.1, ih h.2]

theorem noDouble_tail : ∀ {a : Char} {l : List Char}, noDouble (a :: l) → noDouble l := by
  intro a l h
  cases l with
  | nil => exact trivial
  | cons b rs => exact h.2

theorem stripLead_subset : ∀ l : List Char, ∀ c ∈ stripLead l, c ∈ l := by
  intro l c hc
  cases l with
  | nil => simp [stripLead] at hc
  | cons a rest =>
    by_cases ha : a = '-'
    · rw [stripLead, if_pos ha] at hc
      exact List.mem_cons_of_mem a hc
    · rwa [stripLead, if_neg ha] at hc

theorem headOk_stripLead : ∀ {l : List Char}, noDouble l → headOk (stripLead l) := by
  intro l h
  cases l with
  | nil => exact trivial
  | cons a rest =>
    by_cases ha : a = '-'
    · rw [stripLead, if_pos ha]
      cases rest with
      | nil => exact trivial
      | cons b rs =>
        intro hb
        exact h.1 ⟨ha, hb⟩
    · rw [stripLead, if_neg ha]
      exact ha

theorem noDouble_stripLead : ∀ {l : List Char}, noDouble l → noDouble (stripLead l) := by
  intro l h
  cases l with
  | nil => exact trivial
  | cons a rest =>
    by_cases ha : a = '-'
    · rw [stripLead, if_pos ha]
      exact noDouble_tail h
    · rwa [stripLead, if_neg ha]

theorem stripLead_of_headOk : ∀ {l : List Char}, headOk l → stripLead l = l := by
  intro l h
  cases l with
  | nil => rfl
  | cons a rest => rw [stripLead, if_neg h]

theorem stripTrail_subset : ∀ l : List Char, ∀ c ∈ stripTrail l, c ∈ l := by
  intro l
  induction l with
  | nil => intro c hc; simp [stripTrail] at hc
  | cons a rest ih =>
    cases rest with
    | nil =>
      intro c hc
      by_cases ha : a = '-'
      · rw [stripTrail, if_pos ha] at hc
        exact absurd hc (List.not_mem_nil c)
      · rwa [stripTrail, if_neg ha] at hc
    | cons b rs =>
      intro c hc
      rw [stripTrail] at hc
      rcases List.mem_cons.mp hc with h | h
      · exact h ▸ List.mem_cons_self a _
      · exact List.mem_cons_of_mem a (ih c h)

theorem stripTrail_shape (b : Char) (rest : List Char) :
    stripTrail (b :: rest) = [] ∨ ∃ t, stripTrail (b :: rest) = b :: t := by
  cases rest with
  | nil =>
    by_cases hb : b = '-'
    · exact Or.inl (by rw [stripTrail, if_pos hb])
    · exact Or.inr ⟨[], by rw [stripTrail, if_neg hb]⟩
  | cons r rs => exact Or.inr ⟨stripTrail (r :: rs), rfl⟩

theorem stripTrail_eq_nil : ∀ {b : Char} {rest : List Char},
    stripTrail (b :: rest) = [] → b = '-' ∧ rest = [] := by
  intro b rest h
  cases rest with
  | nil =>
    by_cases hb : b = '-'
    · exact ⟨hb, rfl⟩
    · rw [stripTrail, if_neg hb] at h
      exact absurd h (by simp)
  | cons r rs =>
    rw [stripTrail] at h
    exact absurd h (by simp)

theorem noDouble_stripTrail : ∀ {l : List Char}, noDouble l → noDouble (stripTrail l) := by
  intro l
  induction l with
  | nil => intro _; exact trivial
  | cons a rest ih =>
    cases rest with
    | nil =>
      intro _
      by_cases ha : a = '-'
      · rw [stripTrail, if_pos ha]; exact trivial
      · rw [stripTrail, if_neg ha]; exact trivial
    | cons b rs =>
      intro h
      rw [stripTrail]
      rcases stripTrail_shape b rs with hnil | ⟨t, ht⟩
      · rw [hnil]; exact trivial
      · rw [ht]
        exact ⟨h.1, ht ▸ ih h.2⟩

theorem headOk_stripTrail : ∀ {l : List Char}, headOk l → headOk (stripTrail l) := by
  intro l h
  cases l with
  | nil => exact trivial
  | cons a rest =>
    cases rest with
    | nil =>
      by_cases ha : a = '-'
      · rw [stripTrail, if_pos ha]; exact trivial
      · rwa [stripTrail, if_neg ha]
    | cons b rs =>
      rw [stripTrail]
      exact h

theorem lastOk_stripTrail : ∀ {l : List Char}, noDouble l → lastOk (stripTrail l) := by
  intro l
  induction l with
  | nil => intro _; exact trivial
  | cons a rest ih =>
    cases rest with
    | nil =>
      intro _
      by_cases ha : a = '-'
      · rw [stripTrail, if_pos ha]; exact trivial
      · rw [stripTrail, if_neg ha]; exact ha
    | cons b rs =>
      intro h
      rw [stripTrail]
      rcases stripTrail_shape b rs with hnil | ⟨t, ht⟩
      · rw [hnil]
        obtain ⟨hb, hrs⟩ := stripTrail_eq_nil hnil
        intro ha
        exact h.1 ⟨ha, hb⟩
      · rw [ht]
        have h2 := ht ▸ ih h.2
        exact h2

theorem stripTrail_of_lastOk : ∀ {l : List Char}, lastOk l → stripTrail l = l := by
  intro l
  induction l with
  | nil => intro _; rfl
  | cons a rest ih =>
    cases rest with
    | nil =>
      intro h
      rw [stripTrail, if_neg h]
    | cons b rs =>
      intro h
      rw [stripTrail, ih h]

theorem allowed_sanitizeList (l : List Char) :
    ∀ c ∈ sanitizeList l, allowedChar c = true := by
  intro c hc
  have h1 := stripTrail_subset _ c hc
  have h2 := stripLead_subset _ c h1
  have h3 := collapseH_subset _ c h2
  obtain ⟨d, _, hd⟩ := List.mem_map.mp h3
  exact hd ▸ allowedChar_sanitizeChar d

theorem noDouble_sanitizeList (l : List Char) : noDouble (sanitizeList l) :=
  noDouble_stripTrail (noDouble_stripLead (noDouble_collapseH _))

theorem headOk_sanitizeList (l : List Char) : headOk (sanitizeList l) :=
  headOk_stripTrail (headOk_stripLead (noDouble_collapseH _))

theorem lastOk_sanitizeList (l : List Char) : lastOk (sanitizeList l) :=
  lastOk_stripTrail (noDouble_stripLead (noDouble_collapseH _))

theorem sanitizeList_idem (l : List Char) : sanitizeList (sanitizeList l) = sanitizeList l := by
  show stripTrail (stripLead (collapseH ((sanitizeList l).map sanitizeChar))) = sanitizeList l
  rw [map_sanitizeChar_of_allowed (allowed_sanitizeList l),
    collapseH_of_noDouble (noDouble_sanitizeList l),
    stripLead_of_headOk (headOk_sanitizeList l),
    stripTrail_of_lastOk (lastOk_sanitizeList l)]

theorem sanitizeSlug_idem (s : String) : sanitizeSlug (sanitizeSlug s) = sanitizeSlug s :=
  congrArg String.mk (sanitizeList_idem s.data)

/-- C2: the slug sanitation is idempotent — sanitizing an already-sanitized
slug changes nothing — and the two concrete examples of the spec hold:
`sanitize("Hello World!") = "hello-world"` and
`sanitize("--a--b--") = "a-b"`. -/
theorem C2_sanitize_idempotent :
    (∀ s : String, sanitizeSlug (sanitizeSlug s) = sanitizeSlug s) ∧
    sanitizeSlug "Hello World!" = "hello-world" ∧
    sanitizeSlug "--a--b--" = "a-b" :=
  ⟨sanitizeSlug_idem, by decide, by decide⟩

/-! ### Properties of the listing sort -/

theorem perm_insertSorted (a : Article) :
    ∀ l : List Article, (insertSorted a l).Perm (a :: l) := by
  intro l
  induction l with
  | nil => exact List.Perm.refl _
  | cons b t ih =>
    by_cases h : sortLE a b = true
    · rw [insertSorted, if_pos h]
    · rw [insertSorted, if_neg h]
      exact (List.Perm.cons b ih).trans (List.Perm.swap a b t)

theorem perm_sortArticles : ∀ l : List Article, (sortArticles l).Perm l := by
  intro l
  induction l with
  | nil => exact List.Perm.refl _
  | cons a t ih =>
    exact (perm_insertSorted a (sortArticles t)).trans (List.Perm.cons a ih)

theorem mem_insertSorted {x a : Article} {l : List Article} :
    x ∈ insertSorted a l → x = a ∨ x ∈ l := by
  intro hx
  have := (perm_insertSorted a l).mem_iff.mp hx
  simpa using this

theorem sortLE_le {a b : Article} {ta tb : Int} (hta : articleTimeMs a = some ta)
    (htb : articleTimeMs b = some tb) (h : sortLE a b = true) : tb ≤ ta := by
  rw [sortLE, hta, htb] at h
  exact of_decide_eq_true h

theorem sortLE_of_not {a b : Article} {ta tb : Int} (hta : articleTimeMs a = some ta)
    (htb : articleTimeMs b = some tb) (h : ¬sortLE a b = true) : ta ≤ tb := by
  simp only [sortLE, hta, htb, decide_eq_true_eq] at h
  omega

theorem pairwise_insertSorted (a : Article) :
    ∀ l : List Article, List.Pairwise descBy l →
      (articleTimeMs a).isSome = true →
      (∀ x ∈ l, (articleTimeMs x).isSome = true) →
      List.Pairwise descBy (insertSorted a l) := by
  intro l
  induction l with
  | nil =>
    intro _ _ _
    simp [insertSorted]
  | cons b t ih =>
    intro hl ha hmem
    obtain ⟨ta, hta⟩ := Option.isSome_iff_exists.mp ha
    obtain ⟨tb, htb⟩ := Option.isSome_iff_exists.mp (hmem b (List.mem_cons_self b t))
    by_cases h : sortLE a b = true
    · rw [insertSorted, if_pos h]
      refine List.pairwise_cons.mpr ⟨?_, hl⟩
      intro y hy
      intro ta' ty hta' hty
      rw [hta] at hta'
      injection hta' with hta'
      subst hta'
      rcases List.mem_cons.mp hy with rfl | hyt
      · rw [htb] at hty
        injection hty with hty
        subst hty
        exact sortLE_le hta htb h
      · have hdescb := (List.pairwise_cons.mp hl).1 y hyt
        have h1 : tb ≤ ta := sortLE_le hta htb h
        have h2 : ty ≤ tb := hdescb tb ty htb hty
        omega
    · rw [insertSorted, if_neg h]
      refine List.pairwise_cons.mpr ⟨?_, ?_⟩
      · intro y hy
        rcases mem_insertSorted hy with rfl | hyt
        · intro tb' ty htb' hty
          rw [htb] at htb'
          injection htb' with htb'
          subst htb'
          rw [hta] at hty
          injection hty with hty
          subst hty
          exact sortLE_of_not hta htb h
        · exact (List.pairwise_cons.mp hl).1 y hyt
      · exact ih (List.pairwise_cons.mp hl).2 ha
          (fun x hx => hmem x (List.mem_cons_of_mem b hx))

theorem pairwise_sortArticles :
    ∀ l : List Article, (∀ x ∈ l, (articleTimeMs x).isSome = true) →
      List.Pairwise descBy (sortArticles l) := by
  intro l
  induction l with
  | nil => intro _; simp [sortArticles]
  | cons a t ih =>
    intro hmem
    refine pairwise_insertSorted a (sortArticles t)
      (ih (fun x hx => hmem x (List.mem_cons_of_mem a hx)))
      (hmem a (List.mem_cons_self a t)) ?_
    intro x hx
    exact hmem x (List.mem_cons_of_mem a ((perm_sortArticles t).mem_iff.mp hx))

/-! ### Reduction lemmas for the handler branches -/

theorem handler_of_core_ok {method pathname : String} {bodyResult : Except String Article}
    {now : String} {st : Store} {r : Response × Store}
    (h : handleCore method pathname bodyResult now st = .ok r) :
    handler method pathname bodyResult now st = r := by
  simp only [handler, h]

theorem handler_of_core_error {method pathname : String} {bodyResult : Except String Article}
    {now : String} {st : Store} {e : String}
    (h : handleCore method pathname bodyResult now st = .error e) :
    handler method pathname bodyResult now st = (⟨500, .err "Internal server error"⟩, st) := by
  simp only [handler, h]

theorem getPublishedLoop_ok {st : Store} (hf : st.fail = false) :
    ∀ keys : List String, getPublishedLoop st keys = .ok (publishedOf st keys) := by
  intro keys
  induction keys with
  | nil => rfl
  | cons k ks ih =>
    rw [getPublishedLoop]
    simp only [Store.getJ, hf, if_false, Bool.false_eq_true, ih]
    simp only [publishedOf, List.filterMap_cons]
    cases h : storeFind st k with
    | none => rfl
    | some a =>
      by_cases hp : a.status = some "published"
      · simp only [hp, reduceIte]
      · simp only [hp, if_neg hp, reduceIte]

theorem handleCore_get_found {pathname s : String} {a : Article} {st : Store}
    (hs : pathSlug pathname = some s) (hf : st.fail = false) (ha : storeFind st s = some a)
    (bodyResult : Except String Article) (now : String) :
    handleCore "GET" pathname bodyResult now st = .ok (⟨200, .json a⟩, st) := by
  simp only [handleCore, hs, Store.getJ, hf, ha, if_false, Bool.false_eq_true, reduceIte]

theorem handleCore_get_missing {pathname s : String} {st : Store}
    (hs : pathSlug pathname = some s) (hf : st.fail = false) (ha : storeFind st s = none)
    (bodyResult : Except String Article) (now : String) :
    handleCore "GET" pathname bodyResult now st =
      .ok (⟨404, .err "Article not found"⟩, st) := by
  simp only [handleCore, hs, Store.getJ, hf, ha, if_false, Bool.false_eq_true, reduceIte]

theorem handleCore_get_list {pathname : String} {st : Store}
    (hs : pathSlug pathname = none) (hf : st.fail = false)
    (bodyResult : Except String Article) (now : String) :
    handleCore "GET" pathname bodyResult now st =
      .ok (⟨200, .jsonList (listedArticles st)⟩, st) := by
  simp only [handleCore, hs, Store.listKeys, hf, if_false, Bool.false_eq_true,
    getPublishedLoop_ok hf, listedArticles, reduceIte]

theorem handleCore_post_parse_error (pathname e now : String) (st : Store) :
    handleCore "POST" pathname (.error e) now st = .error e := by
  simp only [handleCore, String.reduceEq, reduceIte]

theorem handleCore_post_invalid {body : Article}
    (hv : truthyStr body.slug = false ∨ truthyStr body.title = false)
    (pathname now : String) (st : Store) :
    handleCore "POST" pathname (.ok body) now st =
      .ok (⟨400, .err "Slug and title are required"⟩, st) := by
  have hcond : (!truthyStr body.slug || !truthyStr body.title) = true := by
    rcases hv with h | h <;> simp [h]
  simp only [handleCore, hcond, String.reduceEq, reduceIte]

theorem handleCore_post_valid {body : Article}
    (hs : truthyStr body.slug = true) (ht : truthyStr body.title = true)
    (pathname now : String) {st : Store} (hf : st.fail = false) :
    handleCore "POST" pathname (.ok body) now st =
      .ok (⟨if (storeFind st (sanitizeSlug (body.slug.getD ""))).isSome then 200 else 201,
            .json (savedArticle body (storeFind st (sanitizeSlug (body.slug.getD ""))) now)⟩,
           ⟨setEntries st.entries (sanitizeSlug (body.slug.getD ""))
              (savedArticle body (storeFind st (sanitizeSlug (body.slug.getD ""))) now),
            st.fail⟩) := by
  have hcond : (!truthyStr body.slug || !truthyStr body.title) = false := by
    simp [hs, ht]
  simp only [handleCore, hcond, Store.getJ, Store.setJSON, hf, if_false, Bool.false_eq_true,
    String.reduceEq, reduceIte, savedArticle]

theorem handleCore_delete_noslug {pathname : String} (hs : pathSlug pathname = none)
    (bodyResult : Except String Article) (now : String) (st : Store) :
    handleCore "DELETE" pathname bodyResult now st =
      .ok (⟨400, .err "Slug is required"⟩, st) := by
  simp only [handleCore, hs, String.reduceEq, reduceIte]

theorem handleCore_delete_slug {pathname s : String} (hs : pathSlug pathname = some s)
    (bodyResult : Except String Article) (now : String) {st : Store} (hf : st.fail = false) :
    handleCore "DELETE" pathname bodyResult now st =
      .ok (⟨200, .success⟩, ⟨st.entries.filter (fun e => e.1 != s), st.fail⟩) := by
  simp only [handleCore, hs, Store.del, hf, if_false, Bool.false_eq_true, String.reduceEq,
    reduceIte]

theorem handleCore_other {method : String} (h1 : method ≠ "GET") (h2 : method ≠ "POST")
    (h3 : method ≠ "DELETE") (pathname : String) (bodyResult : Except String Article)
    (now : String) (st : Store) :
    handleCore method pathname bodyResult now st =
      .ok (⟨405, .err "Method not allowed"⟩, st) := by
  simp only [handleCore, h1, h2, h3, if_false, reduceIte]


theorem handleCore_get_fail {st : Store} (hf : st.fail = true)
    (pathname : String) (bodyResult : Except String Article) (now : String) :
    handleCore "GET" pathname bodyResult now st = .error "store failure" := by
  simp only [handleCore, Store.getJ, Store.listKeys, hf, String.reduceEq, reduceIte]
  cases pathSlug pathname <;> rfl

theorem handleCore_post_fail {body : Article} {st : Store}
    (hs : truthyStr body.slug = true) (ht : truthyStr body.title = true) (hf : st.fail = true)
    (pathname now : String) :
    handleCore "POST" pathname (.ok body) now st = .error "store failure" := by
  have hcond : (!truthyStr body.slug || !truthyStr body.title) = false := by
    simp [hs, ht]
  simp only [handleCore, hcond, Store.getJ, hf, String.reduceEq, reduceIte,
    Bool.false_eq_true]

theorem handleCore_delete_fail {pathname s : String} {st : Store}
    (hs : pathSlug pathname = some s) (hf : st.fail = true)
    (bodyResult : Except String Article) (now : String) :
    handleCore "DELETE" pathname bodyResult now st = .error "store failure" := by
  simp only [handleCore, hs, Store.del, hf, String.reduceEq, reduceIte]

/-! ### Store lookup after writes -/

theorem orTruthy_ne_empty {o : Option String} {dflt : String} (h : dflt ≠ "") :
    orTruthy o dflt ≠ "" := by
  cases o with
  | none => exact h
  | some s =>
    by_cases hs : s = ""
    · simp only [orTruthy, hs, reduceIte]
      exact h
    · simp only [orTruthy, hs, reduceIte]
      exact hs

theorem find?_map_overwrite (k : String) (a : Article) :
    ∀ entries : List (String × Article), entries.any (fun e => e.1 == k) = true →
      (entries.map (fun e => if e.1 == k then (k, a) else e)).find? (fun e => e.1 == k) =
        some (k, a) := by
  intro entries
  induction entries with
  | nil => intro h; simp at h
  | cons e rest ih =>
    intro hany
    rw [List.map_cons]
    by_cases he : (e.1 == k) = true
    · rw [if_pos he]
      exact List.find?_cons_of_pos _ (by simp)
    · rw [if_neg he]
      rw [List.find?_cons_of_neg _ (by simpa using he)]
      refine ih ?_
      simp only [List.any_cons, Bool.or_eq_true] at hany
      rcases hany with h | h
      · exact absurd h he
      · exact h

theorem find?_map_other (k k' : String) (a : Article) (h : k' ≠ k) :
    ∀ entries : List (String × Article),
      (entries.map (fun e => if e.1 == k then (k, a) else e)).find? (fun e => e.1 == k') =
        entries.find? (fun e => e.1 == k') := by
  intro entries
  induction entries with
  | nil => rfl
  | cons e rest ih =>
    rw [List.map_cons]
    by_cases he : (e.1 == k) = true
    · have hek : e.1 = k := by simpa using he
      have h1 : ¬((k, a).1 == k') = true := by
        simp only [beq_iff_eq]
        exact fun hkk => h hkk.symm
      have h2 : ¬(e.1 == k') = true := by
        simp only [beq_iff_eq, hek]
        exact fun hkk => h hkk.symm
      rw [if_pos he]
      simp only [List.find?_cons, Bool.not_eq_true] at h1 h2 ⊢
      rw [h1, h2, ih]
    · rw [if_neg he]
      by_cases he' : (e.1 == k') = true
      · simp only [List.find?_cons, he']
      · simp only [Bool.not_eq_true] at he'
        simp only [List.find?_cons, he', ih]

theorem find?_setEntries_self (entries : List (String × Article)) (k : String) (a : Article) :
    (setEntries entries k a).find? (fun e => e.1 == k) = some (k, a) := by
  rw [setEntries]
  by_cases hany : entries.any (fun e => e.1 == k) = true
  · rw [if_pos hany]
    exact find?_map_overwrite k a entries hany
  · rw [if_neg hany]
    rw [List.find?_append]
    have hnone : entries.find? (fun e => e.1 == k) = none := by
      rw [List.find?_eq_none]
      intro x hx hpx
      exact hany (List.any_eq_true.mpr ⟨x, hx, hpx⟩)
    rw [hnone]
    simp [List.find?]

theorem find?_setEntries_other (entries : List (String × Article)) (k k' : String) (a : Article)
    (h : k' ≠ k) :
    (setEntries entries k a).find? (fun e => e.1 == k') =
      entries.find? (fun e => e.1 == k') := by
  rw [setEntries]
  by_cases hany : entries.any (fun e => e.1 == k) = true
  · rw [if_pos hany]
    exact find?_map_other k k' a h entries
  · rw [if_neg hany]
    rw [List.find?_append]
    have hlast : [(k, a)].find? (fun e => e.1 == k') = none := by
      have : ¬((k, a).1 == k') = true := by
        simp only [beq_iff_eq]
        exact fun hkk => h hkk.symm
      simp only [Bool.not_eq_true] at this
      simp [List.find?_cons, this]
    rw [hlast]
    cases entries.find? (fun e => e.1 == k') <;> rfl

theorem storeFind_set_self (st : Store) (k : String) (a : Article) (f : Bool) :
    storeFind ⟨setEntries st.entries k a, f⟩ k = some a := by
  simp [storeFind, find?_setEntries_self]

theorem storeFind_set_other (st : Store) {k k' : String} (a : Article) (f : Bool)
    (h : k' ≠ k) :
    storeFind ⟨setEntries st.entries k a, f⟩ k' = storeFind st k' := by
  simp [storeFind, find?_setEntries_other st.entries k k' a h]

theorem find?_filter_of_imp {α : Type} (p q : α → Bool) (l : List α)
    (himp : ∀ x, p x = true → q x = true) :
    (l.filter q).find? p = l.find? p := by
  induction l with
  | nil => rfl
  | cons e rest ih =>
    by_cases hp : p e = true
    · rw [List.filter_cons, if_pos (himp e hp)]
      simp [List.find?, hp, ih]
    · rw [List.filter_cons]
      by_cases hq : q e = true
      · rw [if_pos hq]
        simp only [List.find?, Bool.not_eq_true] at hp ⊢
        simp [hp, ih]
      · rw [if_neg hq]
        simp only [Bool.not_eq_true] at hp
        simp [List.find?, hp, ih]

theorem storeFind_del_other (st : Store) {k k' : String} (f : Bool) (h : k' ≠ k) :
    storeFind ⟨st.entries.filter (fun e => e.1 != k), f⟩ k' = storeFind st k' := by
  unfold storeFind
  rw [find?_filter_of_imp]
  intro x hx
  have hk' : x.1 = k' := by simpa using hx
  simp [bne, hk', h]

/-! ### Claim theorems -/

/-- C5: a GET with a slug segment fetches by the exact key and applies no
status filter: if the store lookup yields a value (draft or not) the
response is 200 with that article; if it yields nothing the response is
404 with body `{"error":"Article not found"}`.  The store is untouched. -/
theorem C5_get_by_slug (pathname s : String) (st : Store)
    (hs : pathSlug pathname = some s) (hf : st.fail = false)
    (bodyResult : Except String Article) (now : String) :
    (∀ a : Article, storeFind st s = some a →
      handler "GET" pathname bodyResult now st = (⟨200, .json a⟩, st)) ∧
    (storeFind st s = none →
      handler "GET" pathname bodyResult now st =
        (⟨404, .err "Article not found"⟩, st)) :=
  ⟨fun _ ha => handler_of_core_ok (handleCore_get_found hs hf ha bodyResult now),
   fun ha => handler_of_core_ok (handleCore_get_missing hs hf ha bodyResult now)⟩

/-- Witness for C5 at concrete inputs: a stored draft article is returned
with 200 by direct slug lookup, and a missing slug yields the 404 body. -/
theorem C5_get_by_slug_witness :
    handler "GET" "/api/articles/my-draft" (.error "no body") "now"
        ⟨[("my-draft", artDraft)], false⟩ =
      (⟨200, .json artDraft⟩, ⟨[("my-draft", artDraft)], false⟩) ∧
    handler "GET" "/api/articles/nope" (.error "no body") "now" (⟨[], false⟩ : Store) =
      (⟨404, .err "Article not found"⟩, (⟨[], false⟩ : Store)) :=
  ⟨(C5_get_by_slug "/api/articles/my-draft" "my-draft" ⟨[("my-draft", artDraft)], false⟩
      (by decide) rfl (.error "no body") "now").1 artDraft (by decide),
   (C5_get_by_slug "/api/articles/nope" "nope" ⟨[], false⟩
      (by decide) rfl (.error "no body") "now").2 (by decide)⟩

/-- C6: a DELETE with no slug segment returns 400 with
`{"error":"Slug is required"}` and leaves the store untouched; a DELETE
with a slug segment deletes by the exact key and returns 200 with
`{"success":true}` — also when no record existed under the key, in which
case the store is unchanged. -/
theorem C6_delete (pathname now : String) (bodyResult : Except String Article) (st : Store) :
    (pathSlug pathname = none →
      handler "DELETE" pathname bodyResult now st = (⟨400, .err "Slug is required"⟩, st)) ∧
    (∀ s, pathSlug pathname = some s → st.fail = false →
      handler "DELETE" pathname bodyResult now st =
        (⟨200, .success⟩, ⟨st.entries.filter (fun e => e.1 != s), st.fail⟩) ∧
      (storeFind st s = none →
        (handler "DELETE" pathname bodyResult now st).2 = st)) := by
  constructor
  · intro hs
    exact handler_of_core_ok (handleCore_delete_noslug hs bodyResult now st)
  · intro s hs hf
    have heq := handler_of_core_ok (handleCore_delete_slug hs bodyResult now hf)
    refine ⟨heq, ?_⟩
    intro hnone
    rw [heq]
    have hfind : st.entries.find? (fun e => e.1 == s) = none := by
      unfold storeFind at hnone
      cases hh : st.entries.find? (fun e => e.1 == s) with
      | none => rfl
      | some e => rw [hh] at hnone; simp at hnone
    have hall := List.find?_eq_none.mp hfind
    have hfilter : st.entries.filter (fun e => e.1 != s) = st.entries := by
      rw [List.filter_eq_self]
      intro e he
      simpa using hall e he
    show (⟨st.entries.filter (fun e => e.1 != s), st.fail⟩ : Store) = st
    rw [hfilter]

/-- Witness for C6 at concrete inputs: DELETE without a slug segment is a
400 that leaves the store as it was; DELETE of a key that was never stored
still answers 200 `{"success":true}` with the store unchanged. -/
theorem C6_delete_witness :
    handler "DELETE" "/api/articles" (.error "no body") "now"
        ⟨[("jan", artJan)], false⟩ =
      (⟨400, .err "Slug is required"⟩, ⟨[("jan", artJan)], false⟩) ∧
    handler "DELETE" "/api/articles/ghost" (.error "no body") "now"
        ⟨[("jan", artJan)], false⟩ =
      (⟨200, .success⟩, ⟨[("jan", artJan)], false⟩) := by
  constructor
  · exact (C6_delete "/api/articles" "now" (.error "no body") ⟨[("jan", artJan)], false⟩).1
      (by decide)
  · have h := ((C6_delete "/api/articles/ghost" "now" (.error "no body")
      ⟨[("jan", artJan)], false⟩).2 "ghost" (by decide) rfl).1
    rw [h]
    decide

/-- C7: with a successfully parsed body, a POST answers 400 with
`{"error":"Slug and title are required"}` exactly when the body's `slug`
or `title` is falsy (missing, null or empty), and in that case the store
is untouched. -/
theorem C7_post_validation (pathname now : String) (body : Article) (st : Store) :
    ((handler "POST" pathname (.ok body) now st).1 =
        ⟨400, .err "Slug and title are required"⟩ ↔
      (truthyStr body.slug = false ∨ truthyStr body.title = false)) ∧
    ((truthyStr body.slug = false ∨ truthyStr body.title = false) →
      (handler "POST" pathname (.ok body) now st).2 = st) := by
  have hinv : ∀ hv : truthyStr body.slug = false ∨ truthyStr body.title = false,
      handler "POST" pathname (.ok body) now st =
        (⟨400, .err "Slug and title are required"⟩, st) :=
    fun hv => handler_of_core_ok (handleCore_post_invalid hv pathname now st)
  constructor
  · constructor
    · intro h
      by_contra hv
      push_neg at hv
      have hs : truthyStr body.slug = true := by
        cases hb : truthyStr body.slug with
        | true => rfl
        | false => exact absurd hb hv.1
      have ht : truthyStr body.title = true := by
        cases hb : truthyStr body.title with
        | true => rfl
        | false => exact absurd hb hv.2
      cases hfail : st.fail with
      | true =>
        rw [handler_of_core_error (handleCore_post_fail hs ht hfail pathname now)] at h
        simp at h
      | false =>
        rw [handler_of_core_ok (handleCore_post_valid hs ht pathname now hfail)] at h
        by_cases hex : (storeFind st (sanitizeSlug (body.slug.getD ""))).isSome = true
        · simp [hex] at h
        · simp only [Bool.not_eq_true] at hex
          simp [hex] at h
    · intro hv
      rw [hinv hv]
  · intro hv
    rw [hinv hv]

/-- Witness for C7 at a concrete input: a POST body with a title but no
slug is rejected with the 400 validation error and the store keeps its
single entry. -/
theorem C7_post_validation_witness :
    ((handler "POST" "/api/articles" (.ok { title := some "x" }) "now"
        ⟨[("jan", artJan)], false⟩).1 =
      ⟨400, .err "Slug and title are required"⟩) ∧
    ((handler "POST" "/api/articles" (.ok { title := some "x" }) "now"
        ⟨[("jan", artJan)], false⟩).2 = ⟨[("jan", artJan)], false⟩) :=
  ⟨((C7_post_validation "/api/articles" "now" { title := some "x" }
      ⟨[("jan", artJan)], false⟩).1).mpr (Or.inl (by decide)),
   (C7_post_validation "/api/articles" "now" { title := some "x" }
      ⟨[("jan", artJan)], false⟩).2 (Or.inl (by decide))⟩

/-- C8: the response status is determined by the error class.  A method
other than GET, POST and DELETE answers 405 `{"error":"Method not
allowed"}`; any raised exception — a JSON body-parse failure on POST, or
a store failure, here shown for GET — is caught at the top level and
turned into a 500 whose body is the generic `{"error":"Internal server
error"}`, exposing no internal detail and leaving the store as it was. -/
theorem C8_status_taxonomy :
    (∀ (method pathname : String) (bodyResult : Except String Article) (now : String)
      (st : Store), method ≠ "GET" → method ≠ "POST" → method ≠ "DELETE" →
        handler method pathname bodyResult now st = (⟨405, .err "Method not allowed"⟩, st)) ∧
    (∀ (method pathname : String) (bodyResult : Except String Article) (now : String)
      (st : Store) (e : String),
        handleCore method pathname bodyResult now st = .error e →
          handler method pathname bodyResult now st =
            (⟨500, .err "Internal server error"⟩, st)) ∧
    (∀ (pathname now : String) (st : Store) (e : String),
      handler "POST" pathname (.error e) now st =
        (⟨500, .err "Internal server error"⟩, st)) ∧
    (∀ (pathname : String) (bodyResult : Except String Article) (now : String) (st : Store),
      st.fail = true →
        handler "GET" pathname bodyResult now st =
          (⟨500, .err "Internal server error"⟩, st)) := by
  refine ⟨?_, ?_, ?_, ?_⟩
  · intro method pathname bodyResult now st h1 h2 h3
    exact handler_of_core_ok (handleCore_other h1 h2 h3 pathname bodyResult now st)
  · intro method pathname bodyResult now st e h
    exact handler_of_core_error h
  · intro pathname now st e
    exact handler_of_core_error (handleCore_post_parse_error pathname e now st)
  · intro pathname bodyResult now st hf
    exact handler_of_core_error (handleCore_get_fail hf pathname bodyResult now)

/-- Witness for C8 at concrete inputs: PUT answers 405; a POST whose body
failed to parse answers the generic 500; a GET against a failing store
answers the generic 500. -/
theorem C8_status_taxonomy_witness :
    handler "PUT" "/api/articles" (.error "no body") "now" (⟨[], false⟩ : Store) =
      (⟨405, .err "Method not allowed"⟩, (⟨[], false⟩ : Store)) ∧
    handler "POST" "/api/articles" (.error "bad json") "now" (⟨[], false⟩ : Store) =
      (⟨500, .err "Internal server error"⟩, (⟨[], false⟩ : Store)) ∧
    handler "GET" "/api/articles" (.error "no body") "now" (⟨[], true⟩ : Store) =
      (⟨500, .err "Internal server error"⟩, (⟨[], true⟩ : Store)) :=
  ⟨C8_status_taxonomy.1 "PUT" "/api/articles" (.error "no body") "now" ⟨[], false⟩
      (by decide) (by decide) (by decide),
   C8_status_taxonomy.2.2.1 "/api/articles" "now" ⟨[], false⟩ "bad json",
   C8_status_taxonomy.2.2.2 "/api/articles" (.error "no body") "now" ⟨[], true⟩ rfl⟩

/-- C1: a POST whose body has truthy slug and title, against a healthy
store whose records all carry a truthy `createdAt` (an invariant the
handler itself maintains, see `createdAtOk_handler`): when nothing is
stored under the sanitized slug the response is 201 and the saved record
has `createdAt = updatedAt = now`; when a record exists under the
sanitized slug the response is 200 (not 201), the saved record's
`createdAt` equals the existing record's `createdAt`, and `updatedAt` is
set to `now`. -/
theorem C1_post_create_or_update (pathname now : String) (body : Article) (st : Store)
    (hf : st.fail = false) (hs : truthyStr body.slug = true) (ht : truthyStr body.title = true)
    (hinv : createdAtOk st) :
    (storeFind st (sanitizeSlug (body.slug.getD "")) = none →
      (handler "POST" pathname (.ok body) now st).1 =
        ⟨201, .json (savedArticle body none now)⟩ ∧
      (savedArticle body none now).createdAt = some now ∧
      (savedArticle body none now).updatedAt = some now) ∧
    (∀ ex, storeFind st (sanitizeSlug (body.slug.getD "")) = some ex →
      (handler "POST" pathname (.ok body) now st).1 =
        ⟨200, .json (savedArticle body (some ex) now)⟩ ∧
      (savedArticle body (some ex) now).createdAt = ex.createdAt ∧
      (savedArticle body (some ex) now).updatedAt = some now) := by
  have heq := handler_of_core_ok (handleCore_post_valid hs ht pathname now hf)
  constructor
  · intro hex
    rw [heq, hex]
    refine ⟨rfl, ?_, rfl⟩
    simp [savedArticle, orTruthy]
  · intro ex hex
    rw [heq, hex]
    obtain ⟨e, hfind, he2⟩ : ∃ e, st.entries.find? (fun e => e.1 == sanitizeSlug
        (body.slug.getD "")) = some e ∧ e.2 = ex := by
      unfold storeFind at hex
      cases hh : st.entries.find? (fun e => e.1 == sanitizeSlug (body.slug.getD "")) with
      | none => rw [hh] at hex; simp at hex
      | some e =>
        rw [hh] at hex
        simp only [Option.map_some', Option.some.injEq] at hex
        exact ⟨e, rfl, hex⟩
    obtain ⟨c, hc, hcne⟩ := hinv e (List.mem_of_find?_eq_some hfind)
    rw [he2] at hc
    refine ⟨rfl, ?_, rfl⟩
    simp [savedArticle, Option.bind, hc, orTruthy, hcne]

/-- Witness for C1 at concrete inputs: a first POST of "Hello World!" on
the empty store answers 201 and stamps both timestamps with `now`; a
second POST to the slug "hello" of an already-stored record answers 200,
reuses the stored `createdAt` and restamps `updatedAt`. -/
theorem C1_post_create_or_update_witness :
    ((handler "POST" "/api/articles"
        (.ok { slug := some "Hello World!", title := some "T" })
        "2024-02-02T00:00:00.000Z" (⟨[], false⟩ : Store)).1 =
      ⟨201, .json (savedArticle { slug := some "Hello World!", title := some "T" } none
        "2024-02-02T00:00:00.000Z")⟩ ∧
      (savedArticle { slug := some "Hello World!", title := some "T" } none
        "2024-02-02T00:00:00.000Z").createdAt = some "2024-02-02T00:00:00.000Z" ∧
      (savedArticle { slug := some "Hello World!", title := some "T" } none
        "2024-02-02T00:00:00.000Z").updatedAt = some "2024-02-02T00:00:00.000Z") ∧
    ((handler "POST" "/api/articles"
        (.ok { slug := some "Hello", title := some "New" })
        "2024-02-02T00:00:00.000Z" (⟨[("hello", artExisting)], false⟩ : Store)).1 =
      ⟨200, .json (savedArticle { slug := some "Hello", title := some "New" }
        (some artExisting) "2024-02-02T00:00:00.000Z")⟩ ∧
      (savedArticle { slug := some "Hello", title := some "New" } (some artExisting)
        "2024-02-02T00:00:00.000Z").createdAt = artExisting.createdAt ∧
      (savedArticle { slug := some "Hello", title := some "New" } (some artExisting)
        "2024-02-02T00:00:00.000Z").updatedAt = some "2024-02-02T00:00:00.000Z") :=
  ⟨(C1_post_create_or_update "/api/articles" "2024-02-02T00:00:00.000Z"
      { slug := some "Hello World!", title := some "T" } ⟨[], false⟩ rfl (by decide) (by decide)
      (fun e he => absurd he (List.not_mem_nil e))).1 (by decide),
   (C1_post_create_or_update "/api/articles" "2024-02-02T00:00:00.000Z"
      { slug := some "Hello", title := some "New" } ⟨[("hello", artExisting)], false⟩ rfl
      (by decide) (by decide)
      (fun e he => by
        rw [List.mem_singleton] at he
        subst he
        exact ⟨"2023-05-01T00:00:00.000Z", rfl, by decide⟩)).2 artExisting (by decide)⟩

/-- C4: a successful POST writes exactly the body's fields with `slug`
replaced by the sanitized slug and the two timestamps stamped; nothing is
merged from the previously stored record, so every content field of the
saved record equals the body's (absent in the body means absent in the
saved record, whatever was stored before). -/
theorem C4_post_replaces (pathname now : String) (body : Article) (st : Store)
    (hf : st.fail = false) (hs : truthyStr body.slug = true)
    (ht : truthyStr body.title = true) :
    (handler "POST" pathname (.ok body) now st).1.body =
      .json (savedArticle body (storeFind st (sanitizeSlug (body.slug.getD ""))) now) ∧
    storeFind (handler "POST" pathname (.ok body) now st).2
        (sanitizeSlug (body.slug.getD "")) =
      some (savedArticle body (storeFind st (sanitizeSlug (body.slug.getD ""))) now) ∧
    ∀ ex : Option Article,
      (savedArticle body ex now).slug = some (sanitizeSlug (body.slug.getD "")) ∧
      (savedArticle body ex now).title = body.title ∧
      (savedArticle body ex now).excerpt = body.excerpt ∧
      (savedArticle body ex now).content = body.content ∧
      (savedArticle body ex now).category = body.category ∧
      (savedArticle body ex now).categoryDisplay = body.categoryDisplay ∧
      (savedArticle body ex now).status = body.status ∧
      (savedArticle body ex now).publishedAt = body.publishedAt ∧
      (savedArticle body ex now).updatedAt = some now ∧
      ((savedArticle body ex now).createdAt).isSome = true := by
  have heq := handler_of_core_ok (handleCore_post_valid hs ht pathname now hf)
  refine ⟨by rw [heq], ?_, ?_⟩
  · rw [heq]
    exact storeFind_set_self st (sanitizeSlug (body.slug.getD ""))
      (savedArticle body (storeFind st (sanitizeSlug (body.slug.getD ""))) now) st.fail
  · intro ex
    refine ⟨rfl, rfl, rfl, rfl, rfl, rfl, rfl, rfl, rfl, rfl⟩

/-- Witness for C4 at a concrete input: overwriting the stored record
under "hello" (which carries `status`, `publishedAt` and more) with a
body holding only slug and title drops every field the body did not
resend. -/
theorem C4_post_replaces_witness :
    (handler "POST" "/api/articles" (.ok { slug := some "Hello", title := some "New" })
        "2024-02-02T00:00:00.000Z" (⟨[("hello", artExisting)], false⟩ : Store)).1.body =
      .json (savedArticle { slug := some "Hello", title := some "New" }
        (storeFind (⟨[("hello", artExisting)], false⟩ : Store) (sanitizeSlug "Hello"))
        "2024-02-02T00:00:00.000Z") ∧
    storeFind (handler "POST" "/api/articles"
        (.ok { slug := some "Hello", title := some "New" }) "2024-02-02T00:00:00.000Z"
        (⟨[("hello", artExisting)], false⟩ : Store)).2 (sanitizeSlug "Hello") =
      some (savedArticle { slug := some "Hello", title := some "New" }
        (storeFind (⟨[("hello", artExisting)], false⟩ : Store) (sanitizeSlug "Hello"))
        "2024-02-02T00:00:00.000Z") ∧
    (savedArticle { slug := some "Hello", title := some "New" } (some artExisting)
        "2024-02-02T00:00:00.000Z").status = none ∧
    (savedArticle { slug := some "Hello", title := some "New" } (some artExisting)
        "2024-02-02T00:00:00.000Z").publishedAt = none := by
  have h := C4_post_replaces "/api/articles" "2024-02-02T00:00:00.000Z"
    { slug := some "Hello", title := some "New" } ⟨[("hello", artExisting)], false⟩ rfl
    (by decide) (by decide)
  exact ⟨h.1, h.2.1, (h.2.2 (some artExisting)).2.2.2.2.2.2.1.symm ▸ rfl, rfl⟩

/-- C9: a POST body can pass the required-field check while its slug
sanitizes to the empty string — "!!!" is truthy, yet every character is
replaced and then stripped.  The handler does not reject it: it writes
the record under the empty-string key, answers 201, and returns the
record with slug `""`. -/
theorem C9_empty_slug_accepted :
    truthyStr bodyBang.slug = true ∧ truthyStr bodyBang.title = true ∧
    sanitizeSlug "!!!" = "" ∧
    handler "POST" "/api/articles" (.ok bodyBang) "2024-01-01T00:00:00.000Z"
        (⟨[], false⟩ : Store) =
      (⟨201, .json savedBang⟩, (⟨[("", savedBang)], false⟩ : Store)) ∧
    savedBang.slug = some "" := by
  refine ⟨by decide, by decide, by decide, by decide, by decide⟩

/-- C10: GET-by-slug and DELETE address the store with the raw path
remainder while POST writes under the sanitized slug, so whenever the
sanitized form differs from the raw slug, a POST followed by a GET or a
DELETE with the same raw slug addresses a different key: the GET answers
404 and the DELETE leaves the freshly written record in place. -/
theorem C10_raw_vs_sanitized (raw pathname now : String) (body : Article) (st : Store)
    (hf : st.fail = false) (hslug : body.slug = some raw)
    (ht : truthyStr body.title = true) (hne : raw ≠ "")
    (hdiff : sanitizeSlug raw ≠ raw) (hpath : pathSlug pathname = some raw)
    (habsent : storeFind st raw = none) :
    storeFind (handler "POST" pathname (.ok body) now st).2 raw = none ∧
    handler "GET" pathname (.error "no body") now
        (handler "POST" pathname (.ok body) now st).2 =
      (⟨404, .err "Article not found"⟩, (handler "POST" pathname (.ok body) now st).2) ∧
    storeFind (handler "DELETE" pathname (.error "no body") now
        (handler "POST" pathname (.ok body) now st).2).2 (sanitizeSlug raw) =
      some (savedArticle body (storeFind st (sanitizeSlug raw)) now) := by
  have hs : truthyStr body.slug = true := by
    rw [hslug]
    simpa [truthyStr] using hne
  have heq := handler_of_core_ok (handleCore_post_valid hs ht pathname now hf)
  simp only [hslug, Option.getD_some] at heq
  have h1 : storeFind (handler "POST" pathname (.ok body) now st).2 raw = none := by
    rw [heq]
    rw [storeFind_set_other st _ st.fail (fun h => hdiff h.symm)]
    exact habsent
  refine ⟨h1, ?_, ?_⟩
  · have hf1 : ((handler "POST" pathname (.ok body) now st).2).fail = false := by
      rw [heq]
      exact hf
    exact handler_of_core_ok
      (handleCore_get_missing hpath hf1 h1 (.error "no body") now)
  · have hf1 : ((handler "POST" pathname (.ok body) now st).2).fail = false := by
      rw [heq]
      exact hf
    have hdel := handler_of_core_ok
      (handleCore_delete_slug hpath (.error "no body") now hf1)
    rw [hdel]
    rw [storeFind_del_other _ _ hdiff]
    rw [heq]
    exact storeFind_set_self st (sanitizeSlug raw)
      (savedArticle body (storeFind st (sanitizeSlug raw)) now) st.fail

/-- Witness for C10 at concrete inputs: POST of slug "Hello" stores under
"hello"; GET and DELETE of "/api/articles/Hello" address the key "Hello",
so the GET misses and the DELETE leaves the stored record. -/
theorem C10_raw_vs_sanitized_witness :
    storeFind (handler "POST" "/api/articles/Hello"
        (.ok { slug := some "Hello", title := some "T" }) "now" (⟨[], false⟩ : Store)).2
        "Hello" = none ∧
    handler "GET" "/api/articles/Hello" (.error "no body") "now"
        (handler "POST" "/api/articles/Hello"
          (.ok { slug := some "Hello", title := some "T" }) "now" (⟨[], false⟩ : Store)).2 =
      (⟨404, .err "Article not found"⟩,
        (handler "POST" "/api/articles/Hello"
          (.ok { slug := some "Hello", title := some "T" }) "now" (⟨[], false⟩ : Store)).2) ∧
    storeFind (handler "DELETE" "/api/articles/Hello" (.error "no body") "now"
        (handler "POST" "/api/articles/Hello"
          (.ok { slug := some "Hello", title := some "T" }) "now"
          (⟨[], false⟩ : Store)).2).2 (sanitizeSlug "Hello") =
      some (savedArticle { slug := some "Hello", title := some "T" }
        (storeFind (⟨[], false⟩ : Store) (sanitizeSlug "Hello")) "now") :=
  C10_raw_vs_sanitized "Hello" "/api/articles/Hello" "now"
    { slug := some "Hello", title := some "T" } ⟨[], false⟩ rfl rfl (by decide) (by decide)
    (by decide) (by decide) (by decide)

/-- C3 (amended): a GET with no slug segment on a healthy store answers
200 with the stored articles whose status is "published", arranged by the
stable sort under the comparator on parsed `publishedAt` timestamps; the
result is a permutation of the published entries, and when every
published entry's `publishedAt` parses, it is sorted newest-first.  On an
empty store the answer is 200 with the empty array, never an error.
(The claim's "epoch-0 fallback" for unparseable dates does not hold: an
unparseable date makes the comparator return `NaN`, which sorting treats
as a tie, so such entries keep their relative position instead of
sorting as epoch 0 — see the counterexample.) -/
theorem C3_get_list (pathname now : String) (bodyResult : Except String Article) (st : Store)
    (hf : st.fail = false) (hp : pathSlug pathname = none) :
    handler "GET" pathname bodyResult now st =
      (⟨200, .jsonList (listedArticles st)⟩, st) ∧
    (listedArticles st).Perm (publishedOf st (st.entries.map (fun e => e.1))) ∧
    ((∀ x ∈ publishedOf st (st.entries.map (fun e => e.1)),
        (articleTimeMs x).isSome = true) →
      List.Pairwise descBy (listedArticles st)) ∧
    (st.entries = [] →
      handler "GET" pathname bodyResult now st = (⟨200, .jsonList []⟩, st)) := by
  have heq := handler_of_core_ok (handleCore_get_list hp hf bodyResult now)
  refine ⟨heq, perm_sortArticles _, fun h => pairwise_sortArticles _ h, ?_⟩
  intro hnil
  have hempty : listedArticles st = [] := by
    unfold listedArticles publishedOf
    rw [hnil]
    rfl
  rw [heq, hempty]

/-- Witness for C3 at concrete inputs: listing a store holding the
published articles of 2024-01-01 and 2024-06-01 answers 200 with the
June entry first, and the empty store lists as 200 with `[]`. -/
theorem C3_get_list_witness :
    (handler "GET" "/api/articles" (.error "no body") "now"
        (⟨[("jan", artJan), ("jun", artJun)], false⟩ : Store) =
      (⟨200, .jsonList (listedArticles
        (⟨[("jan", artJan), ("jun", artJun)], false⟩ : Store))⟩,
        (⟨[("jan", artJan), ("jun", artJun)], false⟩ : Store))) ∧
    listedArticles (⟨[("jan", artJan), ("jun", artJun)], false⟩ : Store) =
      [artJun, artJan] ∧
    (handler "GET" "/api/articles" (.error "no body") "now" (⟨[], false⟩ : Store) =
      (⟨200, .jsonList []⟩, (⟨[], false⟩ : Store))) :=
  ⟨(C3_get_list "/api/articles" "now" (.error "no body")
      ⟨[("jan", artJan), ("jun", artJun)], false⟩ rfl (by decide)).1,
   by decide,
   (C3_get_list "/api/articles" "now" (.error "no body") ⟨[], false⟩ rfl (by decide)).2.2.2
     rfl⟩

/-- C3 counterexample: the claim's epoch-0 fallback contradicts the code.
In the store `stBadOrder` the unparseable-date entry is listed before the
2024-06-01 entry, yet its epoch-0 reading (0) is strictly smaller, so the
returned sequence is not in descending epoch-0 order. -/
theorem C3_counterexample :
    handler "GET" "/api/articles" (.error "no body") "now" stBadOrder =
      (⟨200, .jsonList [artBad, artJun]⟩, stBadOrder) ∧
    specEpochTime artBad < specEpochTime artJun := by
  exact ⟨by decide, by decide⟩

/-- The handler maintains the `createdAtOk` store invariant: whenever
`now` is nonempty, every record in the store after any request still
carries a truthy `createdAt` (writes always stamp it with a truthy value;
the other operations only keep or remove records).  This justifies
assuming `createdAtOk` about the pre-state of a request. -/
theorem createdAtOk_handler (method pathname : String) (bodyResult : Except String Article)
    (now : String) (st : Store) (hnow : now ≠ "") (hinv : createdAtOk st) :
    createdAtOk (handler method pathname bodyResult now st).2 := by
  by_cases hm1 : method = "GET"
  · subst hm1
    cases hfail : st.fail with
    | true =>
      rw [handler_of_core_error (handleCore_get_fail hfail pathname bodyResult now)]
      exact hinv
    | false =>
      cases hp : pathSlug pathname with
      | none =>
        rw [handler_of_core_ok (handleCore_get_list hp hfail bodyResult now)]
        exact hinv
      | some s =>
        cases hfind : storeFind st s with
        | none =>
          rw [handler_of_core_ok (handleCore_get_missing hp hfail hfind bodyResult now)]
          exact hinv
        | some a =>
          rw [handler_of_core_ok (handleCore_get_found hp hfail hfind bodyResult now)]
          exact hinv
  · by_cases hm2 : method = "POST"
    · subst hm2
      cases bodyResult with
      | error e =>
        rw [handler_of_core_error (handleCore_post_parse_error pathname e now st)]
        exact hinv
      | ok body =>
        by_cases hs : truthyStr body.slug = true
        · by_cases ht : truthyStr body.title = true
          · cases hfail : st.fail with
            | true =>
              rw [handler_of_core_error (handleCore_post_fail hs ht hfail pathname now)]
              exact hinv
            | false =>
              rw [handler_of_core_ok (handleCore_post_valid hs ht pathname now hfail)]
              intro e he
              simp only [setEntries] at he
              by_cases hany : st.entries.any
                  (fun e => e.1 == sanitizeSlug (body.slug.getD "")) = true
              · rw [if_pos hany] at he
                obtain ⟨e0, he0, heq0⟩ := List.mem_map.mp he
                by_cases h0 : (e0.1 == sanitizeSlug (body.slug.getD "")) = true
                · rw [if_pos h0] at heq0
                  subst heq0
                  exact ⟨_, rfl, orTruthy_ne_empty hnow⟩
                · rw [if_neg h0] at heq0
                  subst heq0
                  exact hinv e0 he0
              · rw [if_neg hany] at he
                rcases List.mem_append.mp he with h0 | h0
                · exact hinv e h0
                · rw [List.mem_singleton] at h0
                  subst h0
                  exact ⟨_, rfl, orTruthy_ne_empty hnow⟩
          · have hv : truthyStr body.slug = false ∨ truthyStr body.title = false :=
              Or.inr (Bool.not_eq_true _ ▸ eq_false_of_ne_true ht)
            rw [handler_of_core_ok (handleCore_post_invalid hv pathname now st)]
            exact hinv
        · have hv : truthyStr body.slug = false ∨ truthyStr body.title = false :=
            Or.inl (Bool.not_eq_true _ ▸ eq_false_of_ne_true hs)
          rw [handler_of_core_ok (handleCore_post_invalid hv pathname now st)]
          exact hinv
    · by_cases hm3 : method = "DELETE"
      · subst hm3
        cases hp : pathSlug pathname with
        | none =>
          rw [handler_of_core_ok (handleCore_delete_noslug hp bodyResult now st)]
          exact hinv
        | some s =>
          cases hfail : st.fail with
          | true =>
            rw [handler_of_core_error (handleCore_delete_fail hp hfail bodyResult now)]
            exact hinv
          | false =>
            rw [handler_of_core_ok (handleCore_delete_slug hp bodyResult now hfail)]
            intro e he
            exact hinv e (List.mem_of_mem_filter he)
      · rw [handler_of_core_ok (handleCore_other hm1 hm2 hm3 pathname bodyResult now st)]
        exact hinv
